import Mathlib

/-!
# Formal model of the ReadoutCard DMA benchmark (`ProgramDmaBench.cxx`)

This file gives a shallow embedding of the superpage DMA streaming and
verification engine of `src/CommandLineUtilities/ProgramDmaBench.cxx` and
proves properties of it.

Modelling conventions:
* 32-bit machine words are `Nat` values; wrap-around arithmetic is made
  explicit with `u32` (reduction modulo `2 ^ 32`).
* A page is a function `Nat → Nat` from 32-bit word index to word value,
  together with its byte size (the code addresses pages through
  `const volatile uint32_t*`).
* The `int64_t` counters of the program (`mPushCount`, `mReadoutCount`,
  `mErrorCount`) start at 0 and are only ever incremented, so they are
  modelled as `Nat`.
* The error stream `mErrorStream` is modelled as the list of the records
  that the code formats into it (event number, word index, generator
  counter, expected word, actual word).
-/

/-- Reduction of a value to an unsigned 32-bit machine word. -/
def u32 (n : Nat) : Nat := n % 2 ^ 32

/-- Conversion of the `int64_t` counter `mDataGeneratorCounter` to the
`uint32_t` argument `counter` of the check functions (C++ integer
conversion: reduction modulo `2 ^ 32`). -/
def toUInt32 (c : Int) : Nat := (c % (2 ^ 32 : Int)).toNat

/-- Generator patterns accepted by the `--pattern` option
(`GeneratorPattern::type`). -/
inductive GeneratorPattern where
  | Incremental
  | Alternating
  | Constant
  | Random
deriving DecidableEq

/-- Card types relevant to the benchmark (`CardType::type`); `Unknown`
stands for every other value of the enum, which both dispatch switches
send to their `default:` branch. -/
inductive CardType where
  | Crorc
  | Cru
  | Unknown
deriving DecidableEq

/-- Max amount of errors that are recorded into the error stream
(`MAX_RECORDED_ERRORS`). -/
def MAX_RECORDED_ERRORS : Nat := 1000

/-- The data emulator writes to every 8th 32-bit word (`PATTERN_STRIDE`). -/
def PATTERN_STRIDE : Nat := 8

/-- Buffer value to reset to (`BUFFER_DEFAULT_VALUE`). -/
def BUFFER_DEFAULT_VALUE : Nat := 0xCcccCccc

/-- One line of the error stream: the fields of the format
`event:%d i:%d cnt:%d exp:0x%x val:0x%x`. -/
structure ErrorRecord where
  eventNumber : Nat
  index : Nat
  counter : Nat
  expected : Nat
  actual : Nat
deriving DecidableEq

/-- The error-reporting state: the running tally `mErrorCount` and the
recorded lines of `mErrorStream`. -/
structure ErrorLog where
  errorCount : Nat
  errorStream : List ErrorRecord
deriving DecidableEq

/-- `ProgramDmaBench::addError`: increment `mErrorCount`, and if verbose
and the incremented count is below `MAX_RECORDED_ERRORS`, append a line to
`mErrorStream`.  `checkErrorsCru` inlines this exact logic at its single
error-reporting site, so this definition is shared by both check families. -/
def addError (verbose : Bool) (eventNumber index generatorCounter expectedValue actualValue : Nat)
    (log : ErrorLog) : ErrorLog :=
  let errorCount := log.errorCount + 1
  { errorCount := errorCount
    errorStream :=
      if verbose = true ∧ errorCount < MAX_RECORDED_ERRORS then
        log.errorStream ++ [⟨eventNumber, index, generatorCounter, expectedValue, actualValue⟩]
      else log.errorStream }

/-- The `for (uint32_t i = 0; i < pageSize32; i += PATTERN_STRIDE)` loop of
the `check` lambda in `ProgramDmaBench::checkErrorsCru`: scan every
`PATTERN_STRIDE`-th word, and stop at the first mismatch, reporting it. -/
def checkLoopCru (patternFunction page : Nat → Nat) (verbose : Bool)
    (eventNumber counter : Nat) (log : ErrorLog) (i pageSize32 : Nat) : Bool × ErrorLog :=
  if i < pageSize32 then
    if page i ≠ patternFunction i then
      (true, addError verbose eventNumber i counter (patternFunction i) (page i) log)
    else
      checkLoopCru patternFunction page verbose eventNumber counter log (i + PATTERN_STRIDE) pageSize32
  else
    (false, log)
termination_by pageSize32 - i
decreasing_by simp [PATTERN_STRIDE]; omega

/-- `ProgramDmaBench::checkErrorsCru`: dispatch on the configured generator
pattern, scanning the page with the pattern's expected-value function; the
`Random` pattern (and no other `GeneratorPattern` value exists beyond the
three supported ones) falls through the switch to `BOOST_THROW_EXCEPTION`. -/
def checkErrorsCru (page : Nat → Nat) (pageSize : Nat) (eventNumber counter : Nat)
    (pattern : GeneratorPattern) (verbose : Bool) (log : ErrorLog) :
    Except String (Bool × ErrorLog) :=
  match pattern with
  | .Incremental =>
      .ok (checkLoopCru (fun i => u32 (counter * 256 + i / 8)) page verbose eventNumber counter log
        0 (pageSize / 4))
  | .Alternating =>
      .ok (checkLoopCru (fun _ => 0xa5a5a5a5) page verbose eventNumber counter log 0 (pageSize / 4))
  | .Constant =>
      .ok (checkLoopCru (fun _ => 0x12345678) page verbose eventNumber counter log 0 (pageSize / 4))
  | .Random => .error "Unsupported pattern for CRU error checking"

/-- The `for (uint32_t i = 8; i < pageSize32; ++i)` loop of the `check`
lambda in `ProgramDmaBench::checkErrorsCrorc`: densely scan every word
after the SDH header, and stop at the first mismatch, reporting it through
`addError`. -/
def checkLoopCrorc (patternFunction page : Nat → Nat) (verbose : Bool)
    (eventNumber counter : Nat) (log : ErrorLog) (i pageSize32 : Nat) : Bool × ErrorLog :=
  if i < pageSize32 then
    if page i ≠ patternFunction i then
      (true, addError verbose eventNumber i counter (patternFunction i) (page i) log)
    else
      checkLoopCrorc patternFunction page verbose eventNumber counter log (i + 1) pageSize32
  else
    (false, log)
termination_by pageSize32 - i
decreasing_by omega

/-- The body of the `check` lambda in `ProgramDmaBench::checkErrorsCrorc`:
first compare word 0 against the running counter (reported through
`addError` but not aborting the page), then densely scan from word 8 (the
SDH is skipped). -/
def crorcCheck (patternFunction page : Nat → Nat) (pageSize : Nat)
    (eventNumber counter : Nat) (verbose : Bool) (log : ErrorLog) : Bool × ErrorLog :=
  let pageSize32 := pageSize / 4
  let log1 :=
    if page 0 ≠ counter then
      addError verbose eventNumber 0 counter counter (page 0) log
    else log
  checkLoopCrorc patternFunction page verbose eventNumber counter log1 8 pageSize32

/-- `ProgramDmaBench::checkErrorsCrorc`: pattern dispatch for the C-RORC
family.  The Incremental expected value is the per-word formula `i - 1`
(uint32 arithmetic; the dense loop only evaluates it at `i ≥ 8`, where it
agrees with truncated subtraction). -/
def checkErrorsCrorc (page : Nat → Nat) (pageSize : Nat) (eventNumber counter : Nat)
    (pattern : GeneratorPattern) (verbose : Bool) (log : ErrorLog) :
    Except String (Bool × ErrorLog) :=
  match pattern with
  | .Incremental =>
      .ok (crorcCheck (fun i => u32 (i - 1)) page pageSize eventNumber counter verbose log)
  | .Alternating =>
      .ok (crorcCheck (fun _ => 0xa5a5a5a5) page pageSize eventNumber counter verbose log)
  | .Constant =>
      .ok (crorcCheck (fun _ => 0x12345678) page pageSize eventNumber counter verbose log)
  | .Random => .error "Unsupported pattern for C-RORC error checking"

/-- `ProgramDmaBench::checkErrors`: dispatch on the detected card type. -/
def checkErrors (cardType : CardType) (page : Nat → Nat) (pageSize : Nat)
    (eventNumber counter : Nat) (pattern : GeneratorPattern) (verbose : Bool) (log : ErrorLog) :
    Except String (Bool × ErrorLog) :=
  match cardType with
  | .Crorc => checkErrorsCrorc page pageSize eventNumber counter pattern verbose log
  | .Cru => checkErrorsCru page pageSize eventNumber counter pattern verbose log
  | .Unknown => .error "Error checking unsupported for this card type"

/-- `ProgramDmaBench::getEventNumber`: `memcpy` of the first 4 bytes of the
page, i.e. the value of 32-bit word 0. -/
def getEventNumber (page : Nat → Nat) : Nat := page 0

/-- The `getDataGeneratorCounterFromPage` lambda in
`ProgramDmaBench::readoutPage`: the C-RORC counter is the page's first
word, the CRU counter is the first word divided by 256. -/
def getDataGeneratorCounterFromPage (cardType : CardType) (page : Nat → Nat) :
    Except String Nat :=
  match cardType with
  | .Crorc => .ok (getEventNumber page)
  | .Cru => .ok (getEventNumber page / 256)
  | .Unknown => .error "Error checking unsupported for this card type"

/-- The per-page verification state of the readout task: the `int64_t`
member `mDataGeneratorCounter` (initialized to `-1`) and the error log. -/
structure ReadoutState where
  dataGeneratorCounter : Int
  log : ErrorLog
deriving DecidableEq

/-- `ProgramDmaBench::readoutPage` (the verification part; the optional
file dump and page reset do not touch the counter or the log): initialize
the counter from the first page if needed, check the page, resync the
counter from the current page on a mismatch when resync is enabled, and
always increment the counter at the end. -/
def readoutPage (cardType : CardType) (pattern : GeneratorPattern)
    (noErrorCheck noResyncCounter verbose : Bool) (page : Nat → Nat) (pageSize : Nat)
    (readoutCount : Nat) (s : ReadoutState) : Except String ReadoutState :=
  if noErrorCheck then
    .ok { s with dataGeneratorCounter := s.dataGeneratorCounter + 1 }
  else
    match (if s.dataGeneratorCounter = -1 then
            (getDataGeneratorCounterFromPage cardType page).map Int.ofNat
           else .ok s.dataGeneratorCounter) with
    | .error e => .error e
    | .ok c0 =>
      match checkErrors cardType page pageSize readoutCount (toUInt32 c0) pattern verbose s.log with
      | .error e => .error e
      | .ok (hasError, log1) =>
        match (if hasError ∧ noResyncCounter = false then
                (getDataGeneratorCounterFromPage cardType page).map Int.ofNat
               else .ok c0) with
        | .error e => .error e
        | .ok c1 => .ok { dataGeneratorCounter := c1 + 1, log := log1 }

/-- Contents written to `readout_errors.txt` by
`ProgramDmaBench::outputErrors`: the accumulated error stream. -/
def outputErrors (log : ErrorLog) : List ErrorRecord := log.errorStream

/-!
## The DMA loop (`ProgramDmaBench::dmaLoop`)

The push thread and the readout thread of `dmaLoop` communicate through
two bounded single-producer/single-consumer queues of superpage offsets
(`folly::ProducerConsumerQueue`, constructed with size
`maxSuperpages + 1`, which holds up to `maxSuperpages` elements) and the
hardware channel.

The hardware channel (`ChannelMasterInterface`) itself is not part of the
source sample.  Modelled from the spec: the channel is a FIFO of pushed
superpage descriptors with a bounded internal submission queue
(`getSuperpageQueueAvailable` / `getSuperpageQueueCount` /
`getSuperpage` = peek head / `popSuperpage` / `pushSuperpage`), and —
absent artificial stalls — the hardware fills every pushed superpage
completely; filling becomes visible at the channel's next
`fillSuperpages` top-up call.  A hardware-owned superpage is a pair
`(offset, filled)`.

Concurrency is modelled by a deterministic fair schedule: one round runs
one iteration of the push-thread `while` body followed by one iteration of
the readout-thread `while` body.  The per-page work of the readout thread
(`readoutPage`) does not touch the queues or the push/readout counters,
so it is elided here; the `pages`-fold of `mReadoutCount.fetch_add(1)`
appears as a single `+ pagesPerSuperpage`.
-/

/-- Configuration of a `dmaLoop` run, after buffer setup. -/
structure DmaConfig where
  bufferSize : Nat
  superpageSize : Nat
  pageSize : Nat
  maxPages : Nat
  hwQueueCapacity : Nat
deriving DecidableEq

/-- `const int maxSuperpages = mBufferSize / mSuperpageSize`. -/
def DmaConfig.maxSuperpages (c : DmaConfig) : Nat := c.bufferSize / c.superpageSize

/-- `const int pagesPerSuperpage = mSuperpageSize / mPageSize`. -/
def DmaConfig.pagesPerSuperpage (c : DmaConfig) : Nat := c.superpageSize / c.pageSize

/-- Usable capacity of the two folly queues: constructed with size
`maxSuperpages + 1`, a `folly::ProducerConsumerQueue` of size `n` holds at
most `n - 1` elements. -/
def DmaConfig.queueCapacity (c : DmaConfig) : Nat := c.maxSuperpages

/-- The `indexToOffset` lambda of `dmaLoop`. -/
def indexToOffset (c : DmaConfig) (i : Nat) : Nat := i * c.superpageSize

/-- The offsets pre-filled into the free queue by `dmaLoop`. -/
def initialOffsets (c : DmaConfig) : List Nat :=
  (List.range c.maxSuperpages).map (indexToOffset c)

/-- The shared state of the two `dmaLoop` threads.  Queues are FIFO lists
(head = read end); `pushStopped` records that the push thread left its
loop through the page-limit `break`. -/
structure DmaState where
  freeQueue : List Nat
  hwQueue : List (Nat × Bool)
  readoutQueue : List Nat
  pushCount : Nat
  readoutCount : Nat
  pushStopped : Bool
  dmaLoopBreak : Bool
deriving DecidableEq

/-- The state at the start of `dmaLoop`: the free queue holds every
partition offset, everything else is empty/zero. -/
def initialDmaState (c : DmaConfig) : DmaState :=
  { freeQueue := initialOffsets c
    hwQueue := []
    readoutQueue := []
    pushCount := 0
    readoutCount := 0
    pushStopped := false
    dmaLoopBreak := false }

/-- Modelled from the spec: `mChannel->fillSuperpages()` plus the no-stall
hardware assumption — every superpage pushed before this call is filled. -/
def fillSuperpages (hw : List (Nat × Bool)) : List (Nat × Bool) :=
  hw.map (fun p => (p.1, true))

/-- The `while (mChannel->getSuperpageQueueAvailable() != 0)` loop of the
push thread: move offsets from the free queue into the channel while the
channel has slots, stopping when the free queue is empty. -/
def pushFreeLoop (hwCap : Nat) : List Nat → List (Nat × Bool) → List Nat × List (Nat × Bool)
  | [], hw => ([], hw)
  | off :: rest, hw =>
    if hw.length < hwCap then pushFreeLoop hwCap rest (hw ++ [(off, false)])
    else (off :: rest, hw)

/-- The `if (mChannel->getSuperpageQueueCount() > 0)` block of the push
thread: peek the head superpage; if it is filled, write its offset to the
readout queue, and only on a successful write add `pagesPerSuperpage` to
the push count and pop the superpage from the channel. -/
def checkFilledSuperpages (queueCap pps : Nat) (hw : List (Nat × Bool)) (rq : List Nat)
    (pc : Nat) : List (Nat × Bool) × List Nat × Nat :=
  match hw with
  | [] => (hw, rq, pc)
  | (off, filled) :: tail =>
    if filled then
      if rq.length < queueCap then (tail, rq ++ [off], pc + pps)
      else (hw, rq, pc)
    else (hw, rq, pc)

/-- One iteration of the push-thread `while (!isStopDma())` body: exit on
the stop flag (or stay exited), break on the page limit, otherwise top up
the channel, feed it free superpages, and move a filled head superpage to
the readout queue. -/
def pushIteration (c : DmaConfig) (s : DmaState) : DmaState :=
  if s.dmaLoopBreak = true ∨ s.pushStopped = true then s
  else if ¬c.maxPages = 0 ∧ c.maxPages ≤ s.pushCount then { s with pushStopped := true }
  else
    let fh := pushFreeLoop c.hwQueueCapacity s.freeQueue (fillSuperpages s.hwQueue)
    let hrp := checkFilledSuperpages c.queueCapacity c.pagesPerSuperpage fh.2 s.readoutQueue
      s.pushCount
    { s with freeQueue := fh.1, hwQueue := hrp.1, readoutQueue := hrp.2.1,
             pushCount := hrp.2.2 }

/-- One iteration of the readout-thread `while (!isStopDma())` body: set
the stop flag on reaching the page limit, otherwise pop one superpage
offset from the readout queue, read out its pages (adding
`pagesPerSuperpage` unit increments to the readout count), and return the
offset to the free queue; a failed free-queue write throws. -/
def readoutIteration (c : DmaConfig) (s : DmaState) : Except String DmaState :=
  if s.dmaLoopBreak = true then .ok s
  else if ¬c.maxPages = 0 ∧ c.maxPages ≤ s.readoutCount then
    .ok { s with dmaLoopBreak := true }
  else
    match s.readoutQueue with
    | [] => .ok s
    | off :: rest =>
      let s1 := { s with readoutQueue := rest
                         readoutCount := s.readoutCount + c.pagesPerSuperpage }
      if s1.freeQueue.length < c.queueCapacity then
        .ok { s1 with freeQueue := s1.freeQueue ++ [off] }
      else
        .error "Something went horribly wrong"

/-- One round of the fair schedule: one push-thread iteration, then one
readout-thread iteration. -/
def dmaRound (c : DmaConfig) (s : DmaState) : Except String DmaState :=
  readoutIteration c (pushIteration c s)

/-- Run the DMA loop for a bounded number of rounds. -/
def dmaRun (c : DmaConfig) : Nat → DmaState → Except String DmaState
  | 0, s => .ok s
  | n + 1, s =>
    match dmaRound c s with
    | .error e => .error e
    | .ok s1 => dmaRun c n s1

/-!
## Buffer-size parsing (`ProgramDmaBench::run`)
-/

/-- Hugepage size selected by the buffer-size unit
(`ProgramDmaBench::HugePageSize`). -/
inductive HugePageSize where
  | SIZE_2MB
  | SIZE_1GB
deriving DecidableEq

/-- Value of a digit string (most significant first). -/
def digitsToNat (cs : List Char) : Nat :=
  cs.foldl (fun acc ch => acc * 10 + (ch.toNat - 48)) 0

/-- The `boost::lexical_cast<size_t>` of the numeric prefix: a
non-empty all-digit string parses to its decimal value, anything else
throws `boost::bad_lexical_cast`. -/
def lexicalCastSizeT (str : String) : Option Nat :=
  if str.length ≠ 0 ∧ str.data.all (fun ch => ch.isDigit) then some (digitsToNat str.data)
  else none

/-- Result of the buffer-size parsing block of `ProgramDmaBench::run`. -/
structure BufferParseResult where
  hugePageSize : HugePageSize
  bufferSize : Nat
deriving DecidableEq

/-- The buffer-size parsing block of `ProgramDmaBench::run` (lines
212–236): inputs shorter than 3 characters are rejected, the last two
characters select the unit, the prefix is `lexical_cast` to a number; `MB`
rounds down to an even number of MiB (minimum 2) with 2 MiB hugepages,
`GB` gives whole GiB with 1 GiB hugepages, any other unit is rejected. -/
def parseBufferSize (input : String) : Except String BufferParseResult :=
  if input.length < 3 then .error "Invalid buffer size given"
  else
    let unit := input.drop (input.length - 2)
    match lexicalCastSizeT (input.take (input.length - 2)) with
    | none => .error "Invalid buffer size argument"
    | some value =>
      if unit = "MB" then
        let value := max 2 value
        .ok { hugePageSize := .SIZE_2MB, bufferSize := (value - value % 2) * 1024 * 1024 }
      else if unit = "GB" then
        .ok { hugePageSize := .SIZE_1GB, bufferSize := value * 1024 * 1024 * 1024 }
      else .error "Invalid buffer size unit given"

/-- The configuration prefix of `ProgramDmaBench::run` that decides the
buffer geometry: compute `mSuperpageSize`, parse the buffer size, and
reject a buffer smaller than a superpage.  Every hardware interaction of
`run` (buffer mapping, `ChannelFactory().getMaster`, reset, `startDma`)
happens after this prefix, so an error here is raised before any hardware
is contacted. -/
def runConfigure (superpageSizeMiB : Nat) (bufferSizeString : String) :
    Except String (HugePageSize × Nat × Nat) :=
  let superpageSize := superpageSizeMiB * 1024 * 1024
  match parseBufferSize bufferSizeString with
  | .error e => .error e
  | .ok r =>
    if r.bufferSize < superpageSize then .error "Buffer size smaller than superpage size"
    else .ok (r.hugePageSize, r.bufferSize, superpageSize)

/-- Modelled from the spec: `Program::execute` (not part of the source
sample) wraps `run` and turns an uncaught configuration exception into a
non-zero exit status. -/
def executeExitCode (r : Except String (HugePageSize × Nat × Nat)) : Nat :=
  match r with
  | .ok _ => 0
  | .error _ => 1

/-- The multiset of superpage offsets currently held by the free queue,
the hardware channel and the readout queue. -/
def dmaOffsets (s : DmaState) : Multiset Nat :=
  (s.freeQueue : Multiset Nat) + (↑(s.hwQueue.map Prod.fst) : Multiset Nat) +
    (s.readoutQueue : Multiset Nat)

/-- Invariant of the DMA loop state under the round schedule: the three
holders partition the initial offsets, the push count leads the readout
count by exactly the pages of the superpages parked in the readout queue,
the readout count is a multiple of `pagesPerSuperpage` that can overshoot
the page limit by less than one superpage, and the stop flags are only
ever set at or past the limit. -/
structure DmaInv (c : DmaConfig) (s : DmaState) : Prop where
  part : dmaOffsets s = (initialOffsets c : Multiset Nat)
  pcEq : s.pushCount = s.readoutCount + c.pagesPerSuperpage * s.readoutQueue.length
  dvd : c.pagesPerSuperpage ∣ s.readoutCount
  rcLt : s.readoutCount < c.maxPages + c.pagesPerSuperpage
  brkGe : s.dmaLoopBreak = true → c.maxPages ≤ s.readoutCount
  stpGe : s.pushStopped = true → c.maxPages ≤ s.pushCount

/-- Termination measure of the round schedule: each round either sets the
stop flag or decreases this measure. -/
def dmaMeasure (c : DmaConfig) (s : DmaState) : Nat :=
  if s.dmaLoopBreak = true then 0
  else
    2 * (c.maxPages + c.pagesPerSuperpage - s.readoutCount) +
      (if s.readoutQueue = [] ∧ s.hwQueue = [] then 1 else 0)

/-!
## Theorems
-/

/-- C8: with the generator pattern configured as `Random` (the only
accepted pattern value beyond Incremental/Alternating/Constant), both the
CRU (Family A) and the C-RORC (Family B) checkers raise a descriptive
"Unsupported pattern" error instead of returning a verification result,
for every page. -/
theorem random_pattern_unsupported (page : Nat → Nat) (pageSize eventNumber counter : Nat)
    (verbose : Bool) (log : ErrorLog) :
    checkErrorsCru page pageSize eventNumber counter .Random verbose log =
      .error "Unsupported pattern for CRU error checking" ∧
    checkErrorsCrorc page pageSize eventNumber counter .Random verbose log =
      .error "Unsupported pattern for C-RORC error checking" :=
  ⟨rfl, rfl⟩

/-- C5: when the hardware channel reports a completed, fully filled head
superpage, the push iteration pops the descriptor if and only if the
offset was successfully written to the readout queue; on a failed write
the channel state is left unchanged, with the filled superpage still at
the head. -/
theorem push_pop_iff_readout_write (queueCap pps off : Nat) (tail : List (Nat × Bool))
    (rq : List Nat) (pc : Nat) :
    (rq.length < queueCap →
      checkFilledSuperpages queueCap pps ((off, true) :: tail) rq pc =
        (tail, rq ++ [off], pc + pps)) ∧
    (¬rq.length < queueCap →
      checkFilledSuperpages queueCap pps ((off, true) :: tail) rq pc =
        ((off, true) :: tail, rq, pc)) := by
  constructor <;> intro h <;> simp [checkFilledSuperpages, h]

/-- Witness for `push_pop_iff_readout_write` at concrete inputs, covering
both the successful-write and the full-queue branch. -/
theorem push_pop_iff_readout_write_witness :
    checkFilledSuperpages 1 3 [(7, true)] [] 0 = ([], [7], 3) ∧
    checkFilledSuperpages 0 3 [(7, true)] [] 0 = ([(7, true)], [], 0) :=
  ⟨(push_pop_iff_readout_write 1 3 7 [] [] 0).1 (by decide),
   (push_pop_iff_readout_write 0 3 7 [] [] 0).2 (by decide)⟩

/-- C6: after the readout task drains a superpage, a failed write of its
offset back to the free queue aborts the run by throwing the
internal-error exception, instead of dropping the offset and
continuing. -/
theorem free_queue_write_failure_fatal (c : DmaConfig) (s : DmaState) (off : Nat)
    (rest : List Nat) (hbrk : s.dmaLoopBreak = false)
    (hlim : ¬(¬c.maxPages = 0 ∧ c.maxPages ≤ s.readoutCount))
    (hrq : s.readoutQueue = off :: rest)
    (hfull : ¬s.freeQueue.length < c.queueCapacity) :
    readoutIteration c s = .error "Something went horribly wrong" := by
  simp only [readoutIteration, hbrk, hrq]
  simp [hlim, hfull]

/-- Witness for `free_queue_write_failure_fatal` at a concrete state whose
free queue is at capacity. -/
theorem free_queue_write_failure_fatal_witness :
    readoutIteration ⟨2, 1, 1, 5, 4⟩ ⟨[0, 1], [], [2], 0, 0, false, false⟩ =
      .error "Something went horribly wrong" :=
  free_queue_write_failure_fatal ⟨2, 1, 1, 5, 4⟩ ⟨[0, 1], [], [2], 0, 0, false, false⟩ 2 []
    rfl (by simp) rfl (by decide)

/-- C7: buffer-size parsing maps "10MB" to a 10 MiB buffer with 2 MiB
hugepages and "1GB" to a 1 GiB buffer with 1 GiB hugepages; a non-numeric
input, an unrecognized unit, or a parsed buffer smaller than the
configured superpage size is a configuration error raised before any
hardware is contacted (the channel is only opened after `runConfigure`
succeeds), giving a non-zero exit status. -/
theorem buffer_size_parsing :
    parseBufferSize "10MB" = .ok ⟨.SIZE_2MB, 10485760⟩ ∧
    parseBufferSize "1GB" = .ok ⟨.SIZE_1GB, 1073741824⟩ ∧
    runConfigure 1 "10MB" = .ok (.SIZE_2MB, 10485760, 1048576) ∧
    parseBufferSize "abc" = .error "Invalid buffer size argument" ∧
    parseBufferSize "10KB" = .error "Invalid buffer size unit given" ∧
    runConfigure 16 "10MB" = .error "Buffer size smaller than superpage size" ∧
    (∀ superpageSizeMiB input r, parseBufferSize input = .ok r →
      r.bufferSize < superpageSizeMiB * 1024 * 1024 →
      runConfigure superpageSizeMiB input = .error "Buffer size smaller than superpage size") ∧
    executeExitCode (runConfigure 1 "abc") ≠ 0 := by
  refine ⟨rfl, rfl, rfl, rfl, rfl, rfl, ?_, by decide⟩
  intro superpageSizeMiB input r hparse hsmall
  simp [runConfigure, hparse, hsmall]

/-- Witness for the general buffer-smaller-than-superpage clause of
`buffer_size_parsing`. -/
theorem buffer_size_parsing_witness :
    runConfigure 3 "2MB" = .error "Buffer size smaller than superpage size" :=
  buffer_size_parsing.2.2.2.2.2.2.1 3 "2MB" ⟨.SIZE_2MB, 2097152⟩ rfl (by decide)

/-- C10: a mismatch line is appended to the in-memory error log only when
verbose mode is on and the incremented error count is strictly below the
cap of 1000, so at most 999 lines are ever retained, and a non-verbose run
writes an empty `readout_errors.txt` even when the running tally is
positive. -/
theorem error_log_cap (verbose : Bool) (ev idx cnt exp act : Nat) (log : ErrorLog) :
    ((addError verbose ev idx cnt exp act log).errorCount = log.errorCount + 1) ∧
    ((addError verbose ev idx cnt exp act log).errorStream =
      if verbose = true ∧ log.errorCount + 1 < MAX_RECORDED_ERRORS then
        log.errorStream ++ [⟨ev, idx, cnt, exp, act⟩]
      else log.errorStream) ∧
    (log.errorStream.length ≤ min log.errorCount (MAX_RECORDED_ERRORS - 1) →
      (addError verbose ev idx cnt exp act log).errorStream.length ≤
        min (addError verbose ev idx cnt exp act log).errorCount (MAX_RECORDED_ERRORS - 1)) ∧
    (verbose = false → (addError verbose ev idx cnt exp act log).errorStream = log.errorStream) ∧
    (verbose = false → log.errorStream = [] →
      outputErrors (addError verbose ev idx cnt exp act log) = []) := by
  refine ⟨rfl, rfl, ?_, ?_, ?_⟩
  · intro hbound
    simp only [addError, MAX_RECORDED_ERRORS] at *
    split
    · rename_i hcond
      simp only [List.length_append, List.length_singleton]
      omega
    · omega
  · intro hv
    simp [addError, hv]
  · intro hv hempty
    simp [outputErrors, addError, hv, hempty]

/-- Witness for `error_log_cap` discharging its retained-entry bound at a
concrete log. -/
theorem error_log_cap_witness :
    (addError true 1 2 3 4 5 ⟨0, []⟩).errorStream.length ≤
      min (addError true 1 2 3 4 5 ⟨0, []⟩).errorCount (MAX_RECORDED_ERRORS - 1) :=
  (error_log_cap true 1 2 3 4 5 ⟨0, []⟩).2.2.1 (by decide)


/-- If every stride-visited word of the page matches the pattern function,
the CRU scan loop reports no mismatch and leaves the log unchanged. -/
theorem checkLoopCru_all_match (patternFunction page : Nat → Nat) (verbose : Bool)
    (eventNumber counter : Nat) (log : ErrorLog) (pageSize32 : Nat) :
    ∀ k i, pageSize32 ≤ i + k →
      (∀ j, i ≤ j → j < pageSize32 → (j - i) % 8 = 0 → page j = patternFunction j) →
      checkLoopCru patternFunction page verbose eventNumber counter log i pageSize32 =
        (false, log) := by
  intro k
  induction k with
  | zero =>
    intro i hk _
    unfold checkLoopCru
    rw [if_neg (by omega)]
  | succ k ih =>
    intro i hk hmatch
    by_cases hi : i < pageSize32
    · have heq : page i = patternFunction i := hmatch i (Nat.le_refl i) hi (by omega)
      unfold checkLoopCru
      rw [if_pos hi, if_neg (by simp [heq])]
      exact ih (i + 8) (by omega) (fun j hj1 hj2 hj3 => hmatch j (by omega) hj2 (by omega))
    · unfold checkLoopCru
      rw [if_neg hi]

/-- If the stride-visited words match the pattern function up to the
stride-reachable index `jj`, which mismatches, the CRU scan loop stops at
`jj` and reports exactly that mismatch; words beyond `jj` are never
inspected. -/
theorem checkLoopCru_first_mismatch (patternFunction page : Nat → Nat) (verbose : Bool)
    (eventNumber counter : Nat) (log : ErrorLog) (pageSize32 jj : Nat) :
    ∀ k i, jj ≤ i + k → i ≤ jj → (jj - i) % 8 = 0 → jj < pageSize32 →
      (∀ j, i ≤ j → j < jj → (j - i) % 8 = 0 → page j = patternFunction j) →
      page jj ≠ patternFunction jj →
      checkLoopCru patternFunction page verbose eventNumber counter log i pageSize32 =
        (true,
          addError verbose eventNumber jj counter (patternFunction jj) (page jj) log) := by
  intro k
  induction k with
  | zero =>
    intro i hk hle _ hsize _ hmiss
    have hij : i = jj := by omega
    subst hij
    unfold checkLoopCru
    rw [if_pos hsize, if_pos hmiss]
  | succ k ih =>
    intro i hk hle hmod hsize hmatch hmiss
    by_cases hij : i = jj
    · subst hij
      unfold checkLoopCru
      rw [if_pos hsize, if_pos hmiss]
    · have hstep : i + 8 ≤ jj := by omega
      have heq : page i = patternFunction i := hmatch i (Nat.le_refl i) (by omega) (by omega)
      unfold checkLoopCru
      rw [if_pos (by omega : i < pageSize32), if_neg (by simp [heq])]
      exact ih (i + 8) (by omega) hstep (by omega) hsize
        (fun j hj1 hj2 hj3 => hmatch j (by omega) hj2 (by omega)) hmiss

/-- C3: for the CRU (Family A) Incremental verifier, a page whose word at
every stride index `i` equals `counter * 256 + i / 8` verifies with zero
mismatches and an unchanged error count, and flipping exactly one such
word makes the verifier record exactly one mismatch at that index with the
correct expected and actual values and stop scanning the page (the words
past the mismatch are never read: `flipped` is unconstrained there). -/
theorem cru_incremental_verifier_correct (counter pageSize ev : Nat) (log : ErrorLog)
    (good flipped : Nat → Nat) (j v : Nat)
    (hgood : ∀ i, i % 8 = 0 → i < pageSize / 4 → good i = u32 (counter * 256 + i / 8))
    (hj8 : j % 8 = 0) (hjs : j < pageSize / 4)
    (hpre : ∀ i, i % 8 = 0 → i < j → flipped i = u32 (counter * 256 + i / 8))
    (hflip : flipped j = v) (hv : v ≠ u32 (counter * 256 + j / 8))
    (hcap : log.errorCount + 1 < MAX_RECORDED_ERRORS) :
    checkErrorsCru good pageSize ev counter .Incremental true log = .ok (false, log) ∧
    checkErrorsCru flipped pageSize ev counter .Incremental true log =
      .ok (true, { errorCount := log.errorCount + 1
                   errorStream := log.errorStream ++
                     [⟨ev, j, counter, u32 (counter * 256 + j / 8), v⟩] }) := by
  constructor
  · unfold checkErrorsCru
    rw [checkLoopCru_all_match _ _ _ _ _ _ _ (pageSize / 4) 0 (by omega)
      (fun i _ hi2 hi3 => hgood i (by omega) hi2)]
  · unfold checkErrorsCru
    rw [checkLoopCru_first_mismatch _ _ _ _ _ _ _ j j 0 (by omega) (by omega) (by omega) hjs
      (fun i _ hi2 hi3 => hpre i (by omega) hi2)
      (by rw [hflip]; exact hv)]
    rw [hflip]
    simp [addError, hcap]

/-- Witness for `cru_incremental_verifier_correct`: a 64-byte page with
counter 1, flipped at stride index 8. -/
theorem cru_incremental_verifier_correct_witness :
    checkErrorsCru (fun i => u32 (1 * 256 + i / 8)) 64 0 1 .Incremental true ⟨0, []⟩ =
      .ok (false, ⟨0, []⟩) ∧
    checkErrorsCru (fun i => if i = 8 then 5 else u32 (1 * 256 + i / 8)) 64 0 1 .Incremental
        true ⟨0, []⟩ =
      .ok (true, ⟨1, [⟨0, 8, 1, u32 (1 * 256 + 8 / 8), 5⟩]⟩) :=
  cru_incremental_verifier_correct 1 64 0 ⟨0, []⟩ _ _ 8 5 (fun _ _ _ => rfl) (by decide)
    (by decide) (fun i _ h2 => if_neg (by omega)) (if_pos rfl) (by decide) (by decide)


/-- If every word from `i` on matches the pattern function, the C-RORC
dense scan loop reports no mismatch and leaves the log unchanged. -/
theorem checkLoopCrorc_all_match (patternFunction page : Nat → Nat) (verbose : Bool)
    (eventNumber counter : Nat) (log : ErrorLog) (pageSize32 : Nat) :
    ∀ k i, pageSize32 ≤ i + k →
      (∀ j, i ≤ j → j < pageSize32 → page j = patternFunction j) →
      checkLoopCrorc patternFunction page verbose eventNumber counter log i pageSize32 =
        (false, log) := by
  intro k
  induction k with
  | zero =>
    intro i hk _
    unfold checkLoopCrorc
    rw [if_neg (by omega)]
  | succ k ih =>
    intro i hk hmatch
    by_cases hi : i < pageSize32
    · have heq : page i = patternFunction i := hmatch i (Nat.le_refl i) hi
      unfold checkLoopCrorc
      rw [if_pos hi, if_neg (by simp [heq])]
      exact ih (i + 1) (by omega) (fun j hj1 hj2 => hmatch j (by omega) hj2)
    · unfold checkLoopCrorc
      rw [if_neg hi]

/-- If the words from `i` up to `jj` match the pattern function and word
`jj` mismatches, the C-RORC dense scan loop stops at `jj` and reports
exactly that mismatch; words beyond `jj` are never inspected. -/
theorem checkLoopCrorc_first_mismatch (patternFunction page : Nat → Nat) (verbose : Bool)
    (eventNumber counter : Nat) (log : ErrorLog) (pageSize32 jj : Nat) :
    ∀ k i, jj ≤ i + k → i ≤ jj → jj < pageSize32 →
      (∀ j, i ≤ j → j < jj → page j = patternFunction j) →
      page jj ≠ patternFunction jj →
      checkLoopCrorc patternFunction page verbose eventNumber counter log i pageSize32 =
        (true,
          addError verbose eventNumber jj counter (patternFunction jj) (page jj) log) := by
  intro k
  induction k with
  | zero =>
    intro i hk hle hsize _ hmiss
    have hij : i = jj := by omega
    subst hij
    unfold checkLoopCrorc
    rw [if_pos hsize, if_pos hmiss]
  | succ k ih =>
    intro i hk hle hsize hmatch hmiss
    by_cases hij : i = jj
    · subst hij
      unfold checkLoopCrorc
      rw [if_pos hsize, if_pos hmiss]
    · have heq : page i = patternFunction i := hmatch i (Nat.le_refl i) (by omega)
      unfold checkLoopCrorc
      rw [if_pos (by omega : i < pageSize32), if_neg (by simp [heq])]
      exact ih (i + 1) (by omega) (by omega) hsize
        (fun j hj1 hj2 => hmatch j (by omega) hj2) hmiss

/-- C4: the C-RORC (Family B) verifier first compares the page's first
word with the running counter and records a mismatch there without
aborting the page, then densely scans every word from the header offset
(word 8) onward with the Incremental per-word expected value `i - 1`; the
first mismatch of the dense scan is recorded and aborts the remaining scan
(words past it are unconstrained), while a page whose dense scan is clean
returns with only the header mismatch recorded. -/
theorem crorc_verifier_correct (page : Nat → Nat) (pageSize ev counter : Nat) (log : ErrorLog)
    (j v : Nat) (hhdr : page 0 ≠ counter) (hj : 8 ≤ j) (hjs : j < pageSize / 4)
    (hmatch : ∀ i, 8 ≤ i → i < j → page i = u32 (i - 1))
    (hflip : page j = v) (hv : v ≠ u32 (j - 1))
    (hcap : log.errorCount + 2 < MAX_RECORDED_ERRORS) :
    (checkErrorsCrorc page pageSize ev counter .Incremental true log =
      .ok (true, { errorCount := log.errorCount + 2
                   errorStream := log.errorStream ++
                     [⟨ev, 0, counter, counter, page 0⟩, ⟨ev, j, counter, u32 (j - 1), v⟩] })) ∧
    (∀ page2 : Nat → Nat, page2 0 ≠ counter →
      (∀ i, 8 ≤ i → i < pageSize / 4 → page2 i = u32 (i - 1)) →
      checkErrorsCrorc page2 pageSize ev counter .Incremental true log =
        .ok (false, { errorCount := log.errorCount + 1
                      errorStream := log.errorStream ++ [⟨ev, 0, counter, counter, page2 0⟩] })) := by
  have h1 : log.errorCount + 1 < MAX_RECORDED_ERRORS := by
    simp only [MAX_RECORDED_ERRORS] at *
    omega
  have h2 : log.errorCount + 1 + 1 < MAX_RECORDED_ERRORS := by
    simp only [MAX_RECORDED_ERRORS] at *
    omega
  constructor
  · unfold checkErrorsCrorc crorcCheck
    rw [if_pos hhdr]
    rw [checkLoopCrorc_first_mismatch _ _ _ _ _ _ (pageSize / 4) j j 8 (by omega) hj hjs
      (fun i hi1 hi2 => hmatch i hi1 hi2) (by rw [hflip]; exact hv)]
    rw [hflip]
    simp [addError, h1, h2, Nat.add_assoc]
  · intro page2 hhdr2 hmatch2
    unfold checkErrorsCrorc crorcCheck
    rw [if_pos hhdr2]
    rw [checkLoopCrorc_all_match _ _ _ _ _ _ (pageSize / 4) (pageSize / 4) 8 (by omega) hmatch2]
    simp [addError, h1]

/-- Witness for `crorc_verifier_correct`: a 48-byte page with a wrong
header word and a dense mismatch at word 10, and a page with only the
wrong header word. -/
theorem crorc_verifier_correct_witness :
    (checkErrorsCrorc (fun i => if i = 0 then 3 else if i = 10 then 99 else u32 (i - 1)) 48 0 7
        .Incremental true ⟨0, []⟩ =
      .ok (true, ⟨2, [⟨0, 0, 7, 7, 3⟩, ⟨0, 10, 7, u32 (10 - 1), 99⟩]⟩)) ∧
    (checkErrorsCrorc (fun i => if i = 0 then 3 else u32 (i - 1)) 48 0 7 .Incremental true
        ⟨0, []⟩ =
      .ok (false, ⟨1, [⟨0, 0, 7, 7, 3⟩]⟩)) := by
  have h := crorc_verifier_correct
    (fun i => if i = 0 then 3 else if i = 10 then 99 else u32 (i - 1)) 48 0 7 ⟨0, []⟩ 10 99
    (by decide) (by decide) (by decide)
    (fun i h1 h2 => by
      show (if i = 0 then (3 : Nat) else if i = 10 then 99 else u32 (i - 1)) = u32 (i - 1)
      rw [if_neg (by omega), if_neg (by omega)])
    (by decide) (by decide) (by decide)
  exact ⟨h.1, h.2 (fun i => if i = 0 then 3 else u32 (i - 1)) (by decide)
    (fun i h1 h2 => by
      show (if i = 0 then (3 : Nat) else u32 (i - 1)) = u32 (i - 1)
      rw [if_neg (by omega)])⟩

/-- C2 (amended): when a page mismatches and resync is enabled, the
verifier's counter is set to the value re-derived from the current
(mismatching) page's leading word and then incremented by the
unconditional end-of-page increment, so the next page is checked against
the re-derived value plus one; when resync is disabled, the counter simply
advances by one per page. -/
theorem readoutPage_resync_amended (cardType : CardType) (pattern : GeneratorPattern)
    (verbose : Bool) (page : Nat → Nat) (pageSize readoutCount : Nat) (s : ReadoutState)
    (derived : Nat) (log1 : ErrorLog)
    (hinit : ¬s.dataGeneratorCounter = -1)
    (hder : getDataGeneratorCounterFromPage cardType page = .ok derived)
    (hchk : checkErrors cardType page pageSize readoutCount (toUInt32 s.dataGeneratorCounter)
      pattern verbose s.log = .ok (true, log1)) :
    readoutPage cardType pattern false false verbose page pageSize readoutCount s =
      .ok { dataGeneratorCounter := Int.ofNat derived + 1, log := log1 } ∧
    readoutPage cardType pattern false true verbose page pageSize readoutCount s =
      .ok { dataGeneratorCounter := s.dataGeneratorCounter + 1, log := log1 } := by
  constructor
  · simp [readoutPage, hinit, hchk, hder, Except.map]
  · simp [readoutPage, hinit, hchk, hder, Except.map]

/-- Witness for `readoutPage_resync_amended`: a CRU Incremental page whose
stride word 8 is corrupted, starting from counter 5. -/
theorem readoutPage_resync_amended_witness :
    readoutPage .Cru .Incremental false false true
        (fun i => if i = 8 then 9999 else u32 (1280 + i / 8)) 64 0 ⟨5, ⟨0, []⟩⟩ =
      .ok { dataGeneratorCounter := Int.ofNat 5 + 1, log := ⟨1, [⟨0, 8, 5, 1281, 9999⟩]⟩ } ∧
    readoutPage .Cru .Incremental false true true
        (fun i => if i = 8 then 9999 else u32 (1280 + i / 8)) 64 0 ⟨5, ⟨0, []⟩⟩ =
      .ok { dataGeneratorCounter := (5 : Int) + 1, log := ⟨1, [⟨0, 8, 5, 1281, 9999⟩]⟩ } :=
  readoutPage_resync_amended .Cru .Incremental true
    (fun i => if i = 8 then 9999 else u32 (1280 + i / 8)) 64 0 ⟨5, ⟨0, []⟩⟩ 5
    ⟨1, [⟨0, 8, 5, 1281, 9999⟩]⟩ (by decide) rfl
    (by simp [checkErrors, checkErrorsCru, checkLoopCru, toUInt32, u32, addError,
      MAX_RECORDED_ERRORS, PATTERN_STRIDE])

/-- C2 (counterexample): after a mismatching page whose re-derived
counter value is 5, the code checks the next page against 6 (the
re-derived value plus one) — not against the value re-derived from the
mismatching page's leading word (5), nor against the value re-derived
from the next page's own leading word (9 for a next page whose first word
is 2304). -/
theorem resync_counter_counterexample :
    getDataGeneratorCounterFromPage .Cru
        (fun i => if i = 8 then 9999 else u32 (1280 + i / 8)) = .ok 5 ∧
    getDataGeneratorCounterFromPage .Cru (fun _ => 2304) = .ok 9 ∧
    readoutPage .Cru .Incremental false false true
        (fun i => if i = 8 then 9999 else u32 (1280 + i / 8)) 64 0 ⟨5, ⟨0, []⟩⟩ =
      .ok ⟨6, ⟨1, [⟨0, 8, 5, 1281, 9999⟩]⟩⟩ ∧
    (6 : Int) ≠ 5 ∧ (6 : Int) ≠ 9 := by
  refine ⟨rfl, rfl, ?_, by decide, by decide⟩
  simp [readoutPage, checkErrors, checkErrorsCru, checkLoopCru, getDataGeneratorCounterFromPage,
    getEventNumber, toUInt32, u32, addError, Except.map, MAX_RECORDED_ERRORS, PATTERN_STRIDE]

/-- The free-to-channel loop moves some prefix of the free queue into the
channel, tagged unfilled, preserving order, and it only leaves offsets
behind when the channel has no free slot left. -/
theorem pushFreeLoop_spec (cap : Nat) (free : List Nat) :
    ∀ hw : List (Nat × Bool), ∃ pre post, free = pre ++ post ∧
      pushFreeLoop cap free hw = (post, hw ++ pre.map (fun o => (o, false))) ∧
      (post = [] ∨ cap ≤ (hw ++ pre.map (fun o => (o, false))).length) := by
  induction free with
  | nil => intro hw; exact ⟨[], [], rfl, by simp [pushFreeLoop], Or.inl rfl⟩
  | cons off rest ih =>
    intro hw
    by_cases h : hw.length < cap
    · obtain ⟨pre, post, heq, hres, halt⟩ := ih (hw ++ [(off, false)])
      refine ⟨off :: pre, post, by simp [heq], by simp [pushFreeLoop, h, hres], ?_⟩
      rcases halt with h1 | h1
      · exact Or.inl h1
      · right
        simp at h1 ⊢
        omega
    · refine ⟨[], off :: rest, rfl, by simp [pushFreeLoop, h], Or.inr ?_⟩
      simp only [List.map_nil, List.append_nil]
      omega

/-- Marking superpages filled does not change which offsets the channel
holds. -/
theorem fillSuperpages_map_fst (hw : List (Nat × Bool)) :
    (fillSuperpages hw).map Prod.fst = hw.map Prod.fst := by
  induction hw with
  | nil => rfl
  | cons p t ih => simp [fillSuperpages]

/-- The partition part of the invariant fixes the total number of held
offsets to `maxSuperpages`. -/
theorem dmaInv_lengths (c : DmaConfig) (s : DmaState) (inv : DmaInv c s) :
    s.freeQueue.length + s.hwQueue.length + s.readoutQueue.length = c.maxSuperpages := by
  have h := congrArg Multiset.card inv.part
  simp [dmaOffsets, Multiset.coe_card, Multiset.card_add, initialOffsets] at h
  omega

/-- Tagging offsets as unfilled superpages and projecting back gives the
offsets. -/
theorem map_fst_tag (pre : List Nat) :
    (pre.map (fun o => (o, false))).map Prod.fst = pre := by
  induction pre with
  | nil => rfl
  | cons a l ih => simp [ih]

/-- Case analysis of one push-thread iteration from a non-stopped state:
the invariant is preserved, the readout count and the stop flag are
untouched, the readout queue only grows, and if the readout queue is still
empty below the page limit then the whole pipeline was empty and the
iteration pushed fresh (unfilled) superpages into the channel. -/
theorem pushIteration_cases (c : DmaConfig) (s : DmaState)
    (hM : 1 ≤ c.maxSuperpages) (hcap : 1 ≤ c.hwQueueCapacity)
    (inv : DmaInv c s) (hbrk : s.dmaLoopBreak = false) :
    DmaInv c (pushIteration c s) ∧
    (pushIteration c s).readoutCount = s.readoutCount ∧
    (pushIteration c s).dmaLoopBreak = false ∧
    ((pushIteration c s).readoutQueue = [] → s.readoutQueue = []) ∧
    ((pushIteration c s).readoutQueue = [] → s.readoutCount < c.maxPages →
      s.readoutQueue = [] ∧ s.hwQueue = [] ∧ (pushIteration c s).hwQueue ≠ []) := by
  have hlen := dmaInv_lengths c s inv
  by_cases hstp : s.pushStopped = true
  · have hp : pushIteration c s = s := by
      unfold pushIteration
      rw [if_pos (Or.inr hstp)]
    rw [hp]
    refine ⟨inv, rfl, hbrk, fun h => h, fun hrq hlt => ?_⟩
    exfalso
    have h1 := inv.stpGe hstp
    have h2 := inv.pcEq
    rw [hrq] at h2
    simp at h2
    omega
  · by_cases hlim : ¬c.maxPages = 0 ∧ c.maxPages ≤ s.pushCount
    · have hp : pushIteration c s = { s with pushStopped := true } := by
        unfold pushIteration
        rw [if_neg (not_or.mpr ⟨by simp [hbrk], hstp⟩), if_pos hlim]
      rw [hp]
      refine ⟨⟨inv.part, inv.pcEq, inv.dvd, inv.rcLt, fun h => inv.brkGe h, fun _ => hlim.2⟩,
        rfl, hbrk, fun h => h, fun hrq hlt => ?_⟩
      exfalso
      simp only [] at hrq
      have h2 := inv.pcEq
      rw [hrq] at h2
      simp at h2
      omega
    · have hnot : ¬(s.dmaLoopBreak = true ∨ s.pushStopped = true) :=
        not_or.mpr ⟨by simp [hbrk], hstp⟩
      obtain ⟨pre, post, hfree, hloop, halt⟩ :=
        pushFreeLoop_spec c.hwQueueCapacity s.freeQueue (fillSuperpages s.hwQueue)
      have hp : pushIteration c s =
          { s with
            freeQueue := post
            hwQueue := (checkFilledSuperpages c.queueCapacity c.pagesPerSuperpage
              (fillSuperpages s.hwQueue ++ pre.map (fun o => (o, false))) s.readoutQueue
              s.pushCount).1
            readoutQueue := (checkFilledSuperpages c.queueCapacity c.pagesPerSuperpage
              (fillSuperpages s.hwQueue ++ pre.map (fun o => (o, false))) s.readoutQueue
              s.pushCount).2.1
            pushCount := (checkFilledSuperpages c.queueCapacity c.pagesPerSuperpage
              (fillSuperpages s.hwQueue ++ pre.map (fun o => (o, false))) s.readoutQueue
              s.pushCount).2.2 } := by
        unfold pushIteration
        rw [if_neg hnot, if_neg hlim, hloop]
      cases hhw : s.hwQueue with
      | cons ob t =>
        obtain ⟨o, b⟩ := ob
        have hroom : s.readoutQueue.length < c.queueCapacity := by
          have h2 := hlen
          rw [hhw] at h2
          simp only [List.length_cons] at h2
          have h3 : c.queueCapacity = c.maxSuperpages := rfl
          omega
        have hcf : checkFilledSuperpages c.queueCapacity c.pagesPerSuperpage
            (fillSuperpages s.hwQueue ++ pre.map (fun o => (o, false))) s.readoutQueue
            s.pushCount =
            (fillSuperpages t ++ pre.map (fun o => (o, false)), s.readoutQueue ++ [o],
              s.pushCount + c.pagesPerSuperpage) := by
          rw [hhw]
          simp [fillSuperpages, checkFilledSuperpages, hroom]
        rw [hp, hcf]
        refine ⟨⟨?_, ?_, inv.dvd, inv.rcLt, fun h => inv.brkGe h, fun h => absurd h hstp⟩,
          rfl, hbrk, fun h => by simp at h, fun h _ => by simp at h⟩
        · rw [← inv.part]
          simp only [dmaOffsets]
          rw [hhw, hfree]
          simp only [List.map_append, fillSuperpages_map_fst, map_fst_tag, List.map_cons]
          simp only [← Multiset.coe_add, ← Multiset.cons_coe, ← Multiset.singleton_add,
            Multiset.coe_singleton]
          abel
        · simp only [List.length_append, List.length_singleton]
          rw [inv.pcEq]
          ring
      | nil =>
        cases hpre : pre with
        | nil =>
          have hpost : post = [] := by
            rcases halt with h1 | h1
            · exact h1
            · rw [hhw, hpre] at h1
              simp [fillSuperpages] at h1
              omega
          have hfq : s.freeQueue = [] := by rw [hfree, hpre, hpost]; rfl
          have hcf : checkFilledSuperpages c.queueCapacity c.pagesPerSuperpage
              (fillSuperpages s.hwQueue ++ pre.map (fun o => (o, false))) s.readoutQueue
              s.pushCount = ([], s.readoutQueue, s.pushCount) := by
            rw [hhw, hpre]
            simp [fillSuperpages, checkFilledSuperpages]
          rw [hp, hcf, hpost]
          refine ⟨⟨?_, inv.pcEq, inv.dvd, inv.rcLt, fun h => inv.brkGe h,
            fun h => inv.stpGe h⟩, rfl, hbrk, fun h => h, fun hrq hlt => ?_⟩
          · rw [← inv.part]
            simp only [dmaOffsets]
            rw [hhw, hfq]
          · exfalso
            simp only [] at hrq
            rw [hfq, hhw, hrq] at hlen
            simp at hlen
            omega
        | cons o pre2 =>
          have hcf : checkFilledSuperpages c.queueCapacity c.pagesPerSuperpage
              (fillSuperpages s.hwQueue ++ pre.map (fun o => (o, false))) s.readoutQueue
              s.pushCount =
              ((o, false) :: pre2.map (fun o => (o, false)), s.readoutQueue, s.pushCount) := by
            rw [hhw, hpre]
            simp [fillSuperpages, checkFilledSuperpages]
          rw [hp, hcf]
          refine ⟨⟨?_, inv.pcEq, inv.dvd, inv.rcLt, fun h => inv.brkGe h,
            fun h => inv.stpGe h⟩, rfl, hbrk, fun h => h, fun hrq hlt => ?_⟩
          · rw [← inv.part]
            simp only [dmaOffsets]
            rw [hhw, hfree, hpre]
            simp only [List.map_cons, List.map_nil, map_fst_tag]
            simp only [← Multiset.coe_add, ← Multiset.cons_coe, ← Multiset.singleton_add,
              Multiset.coe_singleton, Multiset.coe_nil]
            abel
          · simp only [] at hrq
            exact ⟨hrq, rfl, by simp⟩


/-- One full round from a running (non-stopped) state succeeds, preserves
the invariant, and strictly decreases the termination measure. -/
theorem dmaRound_step (c : DmaConfig) (s : DmaState)
    (hN : 1 ≤ c.maxPages) (hpps : 1 ≤ c.pagesPerSuperpage)
    (hM : 1 ≤ c.maxSuperpages) (hcap : 1 ≤ c.hwQueueCapacity)
    (inv : DmaInv c s) (hbrk : s.dmaLoopBreak = false) :
    ∃ s1, dmaRound c s = .ok s1 ∧ DmaInv c s1 ∧ dmaMeasure c s1 < dmaMeasure c s := by
  obtain ⟨pinv, prc, pbrk, pcl4, pcl5⟩ := pushIteration_cases c s hM hcap inv hbrk
  set p := pushIteration c s with hpdef
  by_cases hge : c.maxPages ≤ p.readoutCount
  · have hcond : ¬c.maxPages = 0 ∧ c.maxPages ≤ p.readoutCount := ⟨by omega, hge⟩
    refine ⟨{ p with dmaLoopBreak := true }, ?_, ?_, ?_⟩
    · simp [dmaRound, readoutIteration, ← hpdef, pbrk, hcond]
    · exact ⟨pinv.part, pinv.pcEq, pinv.dvd, pinv.rcLt, fun _ => hge, fun h => pinv.stpGe h⟩
    · have h1 : dmaMeasure c { p with dmaLoopBreak := true } = 0 := by simp [dmaMeasure]
      have h2 : 0 < dmaMeasure c s := by
        have h3 := inv.rcLt
        simp [dmaMeasure, hbrk]
        omega
      omega
  · have hlt : p.readoutCount < c.maxPages := by omega
    have hslt : s.readoutCount < c.maxPages := by rw [← prc]; omega
    have hcond : ¬(¬c.maxPages = 0 ∧ c.maxPages ≤ p.readoutCount) := by
      intro h
      omega
    cases hrq : p.readoutQueue with
    | nil =>
      obtain ⟨hsrq, hshw, hphw⟩ := pcl5 hrq hslt
      refine ⟨p, ?_, pinv, ?_⟩
      · simp [dmaRound, readoutIteration, ← hpdef, pbrk, hcond, hrq]
      · have e1 : dmaMeasure c p =
            2 * (c.maxPages + c.pagesPerSuperpage - s.readoutCount) := by
          simp [dmaMeasure, pbrk, prc, hrq, hphw]
        have e2 : dmaMeasure c s =
            2 * (c.maxPages + c.pagesPerSuperpage - s.readoutCount) + 1 := by
          simp [dmaMeasure, hbrk, hsrq, hshw]
        omega
    | cons off rest =>
      have hplen := dmaInv_lengths c p pinv
      have hwrite : p.freeQueue.length < c.queueCapacity := by
        rw [hrq] at hplen
        simp only [List.length_cons] at hplen
        have h3 : c.queueCapacity = c.maxSuperpages := rfl
        omega
      set s2 : DmaState :=
        { p with
          freeQueue := p.freeQueue ++ [off]
          readoutQueue := rest
          readoutCount := p.readoutCount + c.pagesPerSuperpage } with hs2
      refine ⟨s2, ?_, ⟨?_, ?_, ?_, ?_, ?_, ?_⟩, ?_⟩
      · simp [dmaRound, readoutIteration, ← hpdef, pbrk, hcond, hrq, hwrite, hs2]
      · rw [← pinv.part]
        simp only [hs2, dmaOffsets]
        rw [hrq]
        simp only [← Multiset.coe_add, ← Multiset.cons_coe, ← Multiset.singleton_add,
          Multiset.coe_singleton]
        abel
      · have h2 := pinv.pcEq
        rw [hrq] at h2
        simp only [List.length_cons] at h2
        show p.pushCount = p.readoutCount + c.pagesPerSuperpage +
          c.pagesPerSuperpage * rest.length
        rw [h2]
        ring
      · show c.pagesPerSuperpage ∣ p.readoutCount + c.pagesPerSuperpage
        exact dvd_add pinv.dvd dvd_rfl
      · show p.readoutCount + c.pagesPerSuperpage < c.maxPages + c.pagesPerSuperpage
        omega
      · exact fun h => by simp [hs2, pbrk] at h
      · exact fun h => pinv.stpGe h
      · have e1 : dmaMeasure c s2 ≤
            2 * (c.maxPages + c.pagesPerSuperpage -
              (p.readoutCount + c.pagesPerSuperpage)) + 1 := by
          simp only [hs2, dmaMeasure, pbrk]
          split
          · omega
          · split <;> omega
        have e2 : 2 * (c.maxPages + c.pagesPerSuperpage - s.readoutCount) ≤
            dmaMeasure c s := by
          simp [dmaMeasure, hbrk]
        have h4 := pinv.rcLt
        rw [prc] at e1 h4
        omega

/-- Once the stop flag is set, a round changes nothing: both loop bodies
exit immediately. -/
theorem dmaRound_fixpoint (c : DmaConfig) (s : DmaState) (h : s.dmaLoopBreak = true) :
    dmaRound c s = .ok s := by
  simp [dmaRound, pushIteration, readoutIteration, h]

/-- Running at least as many rounds as the measure of a state reaches a
stopped fixpoint satisfying the invariant. -/
theorem dmaRun_reaches_break (c : DmaConfig)
    (hN : 1 ≤ c.maxPages) (hpps : 1 ≤ c.pagesPerSuperpage)
    (hM : 1 ≤ c.maxSuperpages) (hcap : 1 ≤ c.hwQueueCapacity) :
    ∀ k s, DmaInv c s → dmaMeasure c s ≤ k →
      ∃ s1, dmaRun c k s = .ok s1 ∧ DmaInv c s1 ∧ s1.dmaLoopBreak = true ∧
        dmaRound c s1 = .ok s1 := by
  intro k
  induction k with
  | zero =>
    intro s inv hm
    by_cases hb : s.dmaLoopBreak = true
    · exact ⟨s, rfl, inv, hb, dmaRound_fixpoint c s hb⟩
    · exfalso
      have hb2 : s.dmaLoopBreak = false := by revert hb; cases s.dmaLoopBreak <;> simp
      have hge : 2 ≤ dmaMeasure c s := by
        have h3 := inv.rcLt
        simp [dmaMeasure, hb2]
        omega
      omega
  | succ k ih =>
    intro s inv hm
    by_cases hb : s.dmaLoopBreak = true
    · have hfix := dmaRound_fixpoint c s hb
      have hstep : dmaRun c (k + 1) s = dmaRun c k s := by
        simp [dmaRun, hfix]
      rw [hstep]
      exact ih s inv (by simp [dmaMeasure, hb])
    · have hb2 : s.dmaLoopBreak = false := by revert hb; cases s.dmaLoopBreak <;> simp
      obtain ⟨s1, hround, inv1, hdec⟩ := dmaRound_step c s hN hpps hM hcap inv hb2
      have hstep : dmaRun c (k + 1) s = dmaRun c k s1 := by
        simp [dmaRun, hround]
      rw [hstep]
      exact ih s1 inv1 (by omega)

/-- The state at the start of `dmaLoop` satisfies the invariant. -/
theorem initialDmaState_inv (c : DmaConfig) (hN : 1 ≤ c.maxPages) :
    DmaInv c (initialDmaState c) :=
  ⟨by simp [dmaOffsets, initialDmaState], by simp [initialDmaState], dvd_zero _,
    by simp [initialDmaState]; omega, fun h => by simp [initialDmaState] at h,
    fun h => by simp [initialDmaState] at h⟩

/-- Measure of the initial state. -/
theorem initialDmaState_measure (c : DmaConfig) :
    dmaMeasure c (initialDmaState c) = 2 * (c.maxPages + c.pagesPerSuperpage) + 1 := by
  simp [dmaMeasure, initialDmaState]

/-- A multiple of `pps` in the window `[N, N + pps)` is the least multiple
of `pps` at or above `N`. -/
theorem rc_final_formula (pps N rc : Nat) (hpps : 1 ≤ pps) (hdvd : pps ∣ rc)
    (h1 : N ≤ rc) (h2 : rc < N + pps) :
    rc = pps * ((N + pps - 1) / pps) := by
  obtain ⟨q, rfl⟩ := hdvd
  have hq1 : q ≤ (N + pps - 1) / pps :=
    (Nat.le_div_iff_mul_le (by omega)).mpr (by rw [Nat.mul_comm]; omega)
  have hq2 : (N + pps - 1) / pps ≤ q := by
    have hB : N + pps - 1 < (q + 1) * pps := by
      have hC : (q + 1) * pps = pps * q + pps := by ring
      omega
    exact Nat.le_of_lt_succ ((Nat.div_lt_iff_lt_mul (by omega)).mpr hB)
  have hq : q = (N + pps - 1) / pps := Nat.le_antisymm hq1 hq2
  rw [← hq]

/-- A multiple of `pps` in the window `[N, N + pps)` equals `N` when `pps`
divides `N`. -/
theorem rc_final_exact (pps N rc : Nat) (hpps : 1 ≤ pps) (hdvd : pps ∣ rc) (hdvd2 : pps ∣ N)
    (h1 : N ≤ rc) (h2 : rc < N + pps) : rc = N := by
  obtain ⟨q, rfl⟩ := hdvd
  obtain ⟨m, rfl⟩ := hdvd2
  have hq1 : m ≤ q := Nat.le_of_mul_le_mul_left h1 (by omega)
  have hq2 : q < m + 1 := by
    have hlt : pps * q < pps * (m + 1) := by
      have hC : pps * (m + 1) = pps * m + pps := by ring
      omega
    exact Nat.lt_of_mul_lt_mul_left hlt
  have hq : q = m := by omega
  rw [hq]

/-- C1 (amended): with a positive page limit and no artificial stalls, the
run terminates in a stopped fixpoint; the final readout count is the least
multiple of `pagesPerSuperpage` at or above the limit (so it equals the
limit exactly when `pagesPerSuperpage` divides it, and overshoots
otherwise), and no offset is lost or duplicated — the free queue, the
hardware channel and the readout queue together still partition the
buffer — but offsets may remain inside the hardware channel rather than on
the free queue. -/
theorem dmaLoop_bounded_termination_amended (c : DmaConfig)
    (hN : 1 ≤ c.maxPages) (hpps : 1 ≤ c.pagesPerSuperpage)
    (hM : 1 ≤ c.maxSuperpages) (hcap : 1 ≤ c.hwQueueCapacity) :
    ∃ s, dmaRun c (2 * (c.maxPages + c.pagesPerSuperpage) + 1) (initialDmaState c) =
        .ok s ∧
      s.dmaLoopBreak = true ∧ dmaRound c s = .ok s ∧
      s.readoutCount = c.pagesPerSuperpage *
        ((c.maxPages + c.pagesPerSuperpage - 1) / c.pagesPerSuperpage) ∧
      (c.pagesPerSuperpage ∣ c.maxPages → s.readoutCount = c.maxPages) ∧
      dmaOffsets s = (initialOffsets c : Multiset Nat) := by
  obtain ⟨s1, hrun, inv1, hbrk, hfix⟩ := dmaRun_reaches_break c hN hpps hM hcap
    (2 * (c.maxPages + c.pagesPerSuperpage) + 1) (initialDmaState c)
    (initialDmaState_inv c hN) (by rw [initialDmaState_measure])
  refine ⟨s1, hrun, hbrk, hfix, ?_, ?_, inv1.part⟩
  · exact rc_final_formula c.pagesPerSuperpage c.maxPages s1.readoutCount hpps inv1.dvd
      (inv1.brkGe hbrk) inv1.rcLt
  · intro hd
    exact rc_final_exact c.pagesPerSuperpage c.maxPages s1.readoutCount hpps inv1.dvd hd
      (inv1.brkGe hbrk) inv1.rcLt

/-- Witness for `dmaLoop_bounded_termination_amended`: a 6-unit buffer of
three 2-page superpages, page limit 3, channel depth 3. -/
theorem dmaLoop_bounded_termination_amended_witness :
    ∃ s, dmaRun ⟨6, 2, 1, 3, 3⟩ 11 (initialDmaState ⟨6, 2, 1, 3, 3⟩) = .ok s ∧
      s.dmaLoopBreak = true ∧ dmaRound ⟨6, 2, 1, 3, 3⟩ s = .ok s ∧
      s.readoutCount = 4 ∧
      ((⟨6, 2, 1, 3, 3⟩ : DmaConfig).pagesPerSuperpage ∣
          (⟨6, 2, 1, 3, 3⟩ : DmaConfig).maxPages →
        s.readoutCount = 3) ∧
      dmaOffsets s = (initialOffsets ⟨6, 2, 1, 3, 3⟩ : Multiset Nat) :=
  dmaLoop_bounded_termination_amended ⟨6, 2, 1, 3, 3⟩ (by decide) (by decide) (by decide)
    (by decide)

/-- C1 (counterexample): in a run with buffer 6, superpage size 2, page
size 1 (three superpages of two pages each), page limit 3 and channel
depth 3, the pipeline stops with readout count 4 — not 3 — and offsets 0
and 4 end the run inside the hardware channel, not on the free queue. -/
theorem dmaLoop_pages_exact_counterexample :
    dmaRun ⟨6, 2, 1, 3, 3⟩ 7 (initialDmaState ⟨6, 2, 1, 3, 3⟩) =
      .ok ⟨[2], [(4, true), (0, false)], [], 4, 4, true, true⟩ ∧
    (⟨6, 2, 1, 3, 3⟩ : DmaConfig).maxPages = 3 ∧ (4 : Nat) ≠ 3 ∧
    (0 : Nat) ∈ initialOffsets ⟨6, 2, 1, 3, 3⟩ ∧ (4 : Nat) ∈ initialOffsets ⟨6, 2, 1, 3, 3⟩ ∧
    (0 : Nat) ∉ [2] ∧ (4 : Nat) ∉ [2] := by
  refine ⟨by rfl, rfl, by decide, by decide, by decide, by decide, by decide⟩

/-- The filled-superpage check leaves the push count alone or adds exactly
one superpage's worth of pages. -/
theorem checkFilledSuperpages_pushCount (cap pps : Nat) (hw : List (Nat × Bool))
    (rq : List Nat) (pc : Nat) :
    (checkFilledSuperpages cap pps hw rq pc).2.2 = pc ∨
    (checkFilledSuperpages cap pps hw rq pc).2.2 = pc + pps := by
  cases hw with
  | nil => exact Or.inl rfl
  | cons hd tl =>
    obtain ⟨o, f⟩ := hd
    simp only [checkFilledSuperpages]
    split
    · split
      · exact Or.inr rfl
      · exact Or.inl rfl
    · exact Or.inl rfl

/-- C9: the run statistics counters are monotone non-decreasing: across a
round, the push count either stays or gains exactly `pagesPerSuperpage`,
the readout count either stays or gains exactly `pagesPerSuperpage` (as
`pagesPerSuperpage` unit increments, one per page of the drained
superpage), and every error-count mutation adds exactly one. -/
theorem counters_monotonic (c : DmaConfig) (s s1 : DmaState)
    (h : dmaRound c s = .ok s1) :
    (s.pushCount ≤ s1.pushCount ∧
      (s1.pushCount = s.pushCount ∨ s1.pushCount = s.pushCount + c.pagesPerSuperpage)) ∧
    (s.readoutCount ≤ s1.readoutCount ∧
      (s1.readoutCount = s.readoutCount ∨
        s1.readoutCount = s.readoutCount + c.pagesPerSuperpage)) ∧
    (∀ (verbose : Bool) (ev idx cnt exp act : Nat) (log : ErrorLog),
      (addError verbose ev idx cnt exp act log).errorCount = log.errorCount + 1) := by
  have hpush : ((pushIteration c s).pushCount = s.pushCount ∨
      (pushIteration c s).pushCount = s.pushCount + c.pagesPerSuperpage) ∧
      (pushIteration c s).readoutCount = s.readoutCount := by
    unfold pushIteration
    split
    · exact ⟨Or.inl rfl, rfl⟩
    · split
      · exact ⟨Or.inl rfl, rfl⟩
      · exact ⟨checkFilledSuperpages_pushCount _ _ _ _ _, rfl⟩
  have hread : ∀ q q1 : DmaState, readoutIteration c q = .ok q1 →
      q1.pushCount = q.pushCount ∧
      (q1.readoutCount = q.readoutCount ∨
        q1.readoutCount = q.readoutCount + c.pagesPerSuperpage) := by
    intro q q1 hq
    unfold readoutIteration at hq
    split at hq
    · cases hq
      exact ⟨rfl, Or.inl rfl⟩
    · split at hq
      · cases hq
        exact ⟨rfl, Or.inl rfl⟩
      · split at hq
        · cases hq
          exact ⟨rfl, Or.inl rfl⟩
        · simp only [] at hq
          split at hq
          · cases hq
            exact ⟨rfl, Or.inr rfl⟩
          · cases hq
  unfold dmaRound at h
  obtain ⟨hp1, hp2⟩ := hpush
  obtain ⟨hr1, hr2⟩ := hread (pushIteration c s) s1 h
  refine ⟨⟨?_, ?_⟩, ⟨?_, ?_⟩, fun _ _ _ _ _ _ _ => rfl⟩
  · rcases hp1 with h1 | h1 <;> rw [hr1, h1] <;> omega
  · rw [hr1]
    exact hp1
  · rcases hr2 with h1 | h1 <;> rw [h1, hp2] <;> omega
  · rw [← hp2]
    exact hr2

/-- Witness for `counters_monotonic`: the first round of the concrete
three-superpage run. -/
theorem counters_monotonic_witness :
    ((initialDmaState ⟨6, 2, 1, 3, 3⟩).pushCount ≤
        (⟨[], [(0, false), (2, false), (4, false)], [], 0, 0, false, false⟩ :
          DmaState).pushCount ∧
      ((⟨[], [(0, false), (2, false), (4, false)], [], 0, 0, false, false⟩ :
          DmaState).pushCount = (initialDmaState ⟨6, 2, 1, 3, 3⟩).pushCount ∨
        (⟨[], [(0, false), (2, false), (4, false)], [], 0, 0, false, false⟩ :
          DmaState).pushCount = (initialDmaState ⟨6, 2, 1, 3, 3⟩).pushCount +
            (⟨6, 2, 1, 3, 3⟩ : DmaConfig).pagesPerSuperpage)) ∧
    ((initialDmaState ⟨6, 2, 1, 3, 3⟩).readoutCount ≤
        (⟨[], [(0, false), (2, false), (4, false)], [], 0, 0, false, false⟩ :
          DmaState).readoutCount ∧
      ((⟨[], [(0, false), (2, false), (4, false)], [], 0, 0, false, false⟩ :
          DmaState).readoutCount = (initialDmaState ⟨6, 2, 1, 3, 3⟩).readoutCount ∨
        (⟨[], [(0, false), (2, false), (4, false)], [], 0, 0, false, false⟩ :
          DmaState).readoutCount = (initialDmaState ⟨6, 2, 1, 3, 3⟩).readoutCount +
            (⟨6, 2, 1, 3, 3⟩ : DmaConfig).pagesPerSuperpage)) ∧
    (∀ (verbose : Bool) (ev idx cnt exp act : Nat) (log : ErrorLog),
      (addError verbose ev idx cnt exp act log).errorCount = log.errorCount + 1) :=
  counters_monotonic ⟨6, 2, 1, 3, 3⟩ (initialDmaState ⟨6, 2, 1, 3, 3⟩)
    ⟨[], [(0, false), (2, false), (4, false)], [], 0, 0, false, false⟩ (by rfl)
